import Mathlib

/-!
Verification of the sonosjs discovery core against its design document.

The development shallowly embeds the two source files

  * `src/utils/xml.js` — streaming XML tree builder, path query, URL/entity
    decode helper, and
  * `src/main.js` — device registry, decay sweep, discovery burst and the
    detail-fetch completion callback of the Sonos service,

as executable Lean definitions, and proves (or refutes) the frozen claims
about them.  JavaScript idioms are embedded explicitly: `a || b` on
possibly-undefined booleans, `===` between a nullable field and a string,
object key maps as insertion-ordered association lists, and `decodeURI`
with its reserved-character exemptions.
-/

namespace Sonos

/-! ## JavaScript primitive semantics -/

/-- JavaScript `a || true` where `a` is a boolean option field that may be
`undefined` (`none`).  `some true` is truthy and the expression evaluates to
`a` itself (the value `true`); `some false` and `none` (undefined) are falsy
and the expression evaluates to the right operand, the literal `true`.
Used for `opts.strict || true` and `opts.excludeNamespace || true` in
`xmlParser` (src/utils/xml.js lines 33-34). -/
def jsOrTrue : Option Bool → Bool
  | some true => true
  | some false => true
  | none => true

/-- JavaScript `opts.name || null` in the `xmlNode` constructor
(src/utils/xml.js line 10): the empty string is falsy, so it is replaced by
`null`; any other string is kept. -/
def jsStringOrNull (s : String) : Option String :=
  if s = "" then none else some s

/-! ## XML node model (src/utils/xml.js, `xmlNode`)

`xmlNode` carries `name`, `attributes`, `text`, `children` and a non-owning
`parent` back-reference.  The design document (§9) stresses that only child
lists are ownership edges, so the tree is embedded without the parent
pointer; the chain of open ancestors is kept as an explicit stack in the
parser state below, which is exactly the information the `parent` pointer
provides to `onCloseTag`. -/

inductive XmlNode where
  | mk (name : Option String) (attributes : List (String × String))
       (text : Option String) (children : List XmlNode)

def XmlNode.name : XmlNode → Option String
  | .mk n _ _ _ => n

def XmlNode.attributes : XmlNode → List (String × String)
  | .mk _ a _ _ => a

def XmlNode.text : XmlNode → Option String
  | .mk _ _ t _ => t

def XmlNode.children : XmlNode → List XmlNode
  | .mk _ _ _ c => c

/-- Overwrite the `text` field, as the assignment `currentTagNode.text = text`
does in `onText` (src/utils/xml.js line 101). -/
def XmlNode.setText (t : Option String) : XmlNode → XmlNode
  | .mk n a _ c => .mk n a t c

/-- Append a completed child, as `currentTagNode.children.push(node)` does in
`onOpenTag` (src/utils/xml.js line 125); in this embedding the push becomes
visible on the parent when the child is popped in `onCloseTag`. -/
def XmlNode.appendChild : XmlNode → XmlNode → XmlNode
  | .mk n a t c, child => .mk n a t (c ++ [child])

/-! ## Namespace stripping (src/utils/xml.js lines 114-116 and 135-137) -/

/-- The characters after the first `:` of the list, or `none` when there is
no colon: this is `tagName.indexOf(":") >= 0` plus
`tagName.substr(tagName.indexOf(":") + 1)`. -/
def dropThroughColon : List Char → Option (List Char)
  | [] => none
  | c :: rest => if c = ':' then some rest else dropThroughColon rest

/-- Strip the namespace portion of a tag name: `<u:tag>` becomes `<tag>`.
Applied by both `onOpenTag` and `onCloseTag` when `excludeNamespace` holds. -/
def stripNamespace (tagName : String) : String :=
  match dropThroughColon tagName.data with
  | some rest => String.mk rest
  | none => tagName

/-! ## Parser options (src/utils/xml.js lines 30-34) -/

/-- The options object accepted by `xmlParser`; each boolean may be absent
(`none` = JavaScript `undefined`). -/
structure XmlParserOpts where
  strict : Option Bool
  excludeNamespace : Option Bool

/-- The first argument handed to `sax.parser`:
`opts.strict || true` (src/utils/xml.js line 33). -/
def saxStrictArg (opts : XmlParserOpts) : Bool :=
  jsOrTrue opts.strict

/-- The captured `excludeNamespace` flag:
`opts.excludeNamespace || true` (src/utils/xml.js line 34). -/
def excludeNamespaceSetting (opts : XmlParserOpts) : Bool :=
  jsOrTrue opts.excludeNamespace

/-! ## Parser state and sax event handlers (src/utils/xml.js lines 71-142)

`currentTagNode` is the deepest open node (or `null`); its ancestors are
reachable through `parent` pointers.  The embedding keeps the ancestors in
`stack` (deepest parent first) and the open node in `current`.  A handler
that would dereference `null` in JavaScript returns `none` (a thrown
`TypeError`). -/

structure ParserState where
  stack : List XmlNode
  current : Option XmlNode

/-- One sax callback event: open tag (with attributes), close tag, or text. -/
inductive SaxEvent where
  | openTag (name : String) (attributes : List (String × String))
  | closeTag (name : String)
  | text (t : String)

/-- `onText` (src/utils/xml.js lines 99-103): if there is a current node its
`text` field is assigned (overwritten); otherwise nothing happens. -/
def onTextEv (text : String) (s : ParserState) : ParserState :=
  match s.current with
  | none => s
  | some c => { s with current := some (c.setText (some text)) }

/-- `onOpenTag` (src/utils/xml.js lines 111-127): strip the namespace when
`excludeNamespace` holds, create a node whose `name` is the stripped tag name
(or `null` for the empty string, per the `xmlNode` constructor), push it as a
child of the current node and make it current.  With no current node the
JavaScript `currentTagNode.children.push` throws. -/
def onOpenTagEv (excludeNs : Bool) (tagNameRaw : String)
    (attrs : List (String × String)) (s : ParserState) : Option ParserState :=
  let tagName := if excludeNs then stripNamespace tagNameRaw else tagNameRaw
  match s.current with
  | none => none
  | some c =>
      some { stack := c :: s.stack,
             current := some (XmlNode.mk (jsStringOrNull tagName) attrs none []) }

/-- `onCloseTag` (src/utils/xml.js lines 134-142): strip the namespace, then
pop to the parent only when `currentTagNode.name === tagName`.  The strict
equality compares the nullable node name with the (non-null) tag string, so a
node with `null` name never matches.  A mismatching close tag leaves the
state untouched. -/
def onCloseTagEv (excludeNs : Bool) (tagNameRaw : String) (s : ParserState) :
    Option ParserState :=
  let tagName := if excludeNs then stripNamespace tagNameRaw else tagNameRaw
  match s.current with
  | none => none
  | some c =>
      if c.name = some tagName then
        match s.stack with
        | [] => some { stack := [], current := none }
        | p :: rest => some { stack := rest, current := some (p.appendChild c) }
      else some s

/-- Dispatch one sax event to the registered handlers
(src/utils/xml.js lines 167-172). -/
def applyEvent (excludeNs : Bool) (e : SaxEvent) (s : ParserState) :
    Option ParserState :=
  match e with
  | .openTag n attrs => onOpenTagEv excludeNs n attrs s
  | .closeTag n => onCloseTagEv excludeNs n s
  | .text t => some (onTextEv t s)

/-- `parse` (src/utils/xml.js lines 71-78) initialises
`currentTagNode = xmlNode({name: "/"})` before writing the document. -/
def initParserState : ParserState :=
  { stack := [], current := some (XmlNode.mk (jsStringOrNull "/") [] none []) }

/-- Run the stream of sax events produced for a document through the
handlers.  The tokenizer itself is the external sax-js dependency (not under
src/), so documents are presented as their event streams. -/
def parseEvents (excludeNs : Bool) (events : List SaxEvent) : Option ParserState :=
  events.foldl (fun st e => st.bind (applyEvent excludeNs e)) (some initParserState)

/-! ## Path query (src/utils/xml.js lines 55-62 and 144-161) -/

/-- JavaScript `xpath.split("/")`: split at every slash, keeping empty
segments; the empty string yields `[""]`. -/
def splitSlashChars : List Char → List (List Char)
  | [] => [[]]
  | c :: rest =>
      if c = '/' then [] :: splitSlashChars rest
      else
        match splitSlashChars rest with
        | [] => [[c]]
        | seg :: segs => (c :: seg) :: segs

def jsSplitSlash (s : String) : List String :=
  (splitSlashChars s.data).map String.mk

/-- `subQuery` (src/utils/xml.js lines 144-161): walk the children of the
node; a child is skipped when `searchPath[0] !== child.name` (in particular a
`null` child name never matches, and an empty path has `undefined` as head,
which never matches either); a matching child is returned when the path has
one segment left and recursed into otherwise. -/
def subQuery (searchPath : List String) (subStructure : XmlNode) : List XmlNode :=
  match searchPath with
  | [] => []
  | s :: rest =>
      subStructure.children.foldl
        (fun results child =>
          if child.name ≠ some s then results
          else if rest = [] then results ++ [child]
          else results ++ subQuery rest child)
        []

/-- `query` (src/utils/xml.js lines 55-62): split the path on `/`, drop a
leading empty segment, and run `subQuery` from the current (root) node. -/
def query (xpath : String) (currentTagNode : XmlNode) : List XmlNode :=
  let path := jsSplitSlash xpath
  let path₂ := if path.head? = some "" then path.tail else path
  subQuery path₂ currentTagNode

/-! ## The decode helper (src/utils/xml.js lines 186-193)

`decodeXml` first applies the JavaScript builtin `decodeURI` and then five
fixed literal regex replacements.  `decodeURI` is embedded following
ECMA-262: a `%XX` escape is decoded unless the decoded character belongs to
the reserved set `; / ? : @ & = + $ ,` or `#`, in which case the escape is
kept verbatim; a malformed escape throws `URIError` (`none` here).  Escapes
of non-ASCII code points start multi-byte UTF-8 sequences, which this model
does not cover and maps to `none`; every input considered in this
development is pure ASCII. -/

def uriReservedSet : List Char :=
  ['#', '$', '&', '+', ',', '/', ':', ';', '=', '?', '@']

/-- The value of a hexadecimal digit, upper or lower case
(code points: 0-9 are 48-57, A-F are 65-70, a-f are 97-102). -/
def hexDigitVal (c : Char) : Option Nat :=
  let n := c.toNat
  if 48 ≤ n ∧ n ≤ 57 then some (n - 48)
  else if 65 ≤ n ∧ n ≤ 70 then some (n - 55)
  else if 97 ≤ n ∧ n ≤ 102 then some (n - 87)
  else none

def decodeURIList : List Char → Option (List Char)
  | [] => some []
  | '%' :: rest =>
      match rest with
      | h₁ :: h₂ :: rest₂ =>
          match hexDigitVal h₁, hexDigitVal h₂ with
          | some a, some b =>
              let code := 16 * a + b
              if 128 ≤ code then none
              else if Char.ofNat code ∈ uriReservedSet then
                (decodeURIList rest₂).map (fun tl => '%' :: h₁ :: h₂ :: tl)
              else (decodeURIList rest₂).map (fun tl => Char.ofNat code :: tl)
          | _, _ => none
      | _ => none
  | c :: rest => (decodeURIList rest).map (fun tl => c :: tl)

def decodeURIStr (s : String) : Option String :=
  (decodeURIList s.data).map String.mk

/-- Does the second list start with the first? -/
def charsHavePrefix : List Char → List Char → Bool
  | [], _ => true
  | _ :: _, [] => false
  | p :: ps, c :: cs => p == c && charsHavePrefix ps cs

/-- Leftmost non-overlapping global replacement, the semantics of
`String.prototype.replace` with a global literal regex.  The `Nat` argument
counts input characters still to be consumed by an earlier match. -/
def replaceGo (pat rep : List Char) : List Char → Nat → List Char
  | [], _ => []
  | _ :: rest, Nat.succ k => replaceGo pat rep rest k
  | c :: rest, 0 =>
      if charsHavePrefix pat (c :: rest) then
        rep ++ replaceGo pat rep rest (pat.length - 1)
      else c :: replaceGo pat rep rest 0

/-- JavaScript `s.replace(/pat/g, rep)` for a non-empty literal `pat`. -/
def jsReplaceAll (s pat rep : String) : String :=
  String.mk (replaceGo pat.data rep.data s.data 0)

/-- `decodeXml` (src/utils/xml.js lines 186-193): `decodeURI` followed by the
five fixed entity substitutions in source order, ampersand last.  `none`
models a thrown `URIError`. -/
def decodeXml (encodedXml : String) : Option String :=
  (decodeURIStr encodedXml).map (fun s =>
    jsReplaceAll (jsReplaceAll (jsReplaceAll (jsReplaceAll (jsReplaceAll
      s "&lt;" "<") "&gt;" ">") "&quot;" "\"") "&#039;" "'") "&amp;" "&")

/-! ## Device registry and orchestrator (src/main.js)

The `models` package is not under src/, so the device record is modelled
from the spec.  The registry itself — the `devices` object, `getDevices`,
`addDevice`, `removeDevice`, `manageDeviceDecay`, `requestDeviceDetails`,
`discover`, `stop` — is all in src/main.js and embedded from it.  A
JavaScript object keyed by device id is an insertion-ordered association
list with unique keys: assignment to an existing key replaces the value in
place, assignment to a fresh key appends, `for (k in o)` visits keys in that
order. -/

/-- Modelled from the spec: the `models.device` package (not under src/)
produces device records; spec §3 lists `id`, `infoUrl`, `mediaStateUrl`,
`lastUpdated` plus descriptive attributes.  Only the fields the registry
code reads are carried: `getLastUpdated()`, `getInfoUrl()`, `setInfoUrl` and
`device.id`. -/
structure Device where
  id : String
  infoUrl : String
  lastUpdated : Int
deriving DecidableEq

/-- The observable side effects the registry/orchestrator code performs:
`event.trigger(event.action.DEVICES, getDevices())`, `net.httpRequest(url)`
and `setTimeout(manageDeviceDecay, delay)`. -/
inductive Emit where
  | devicesChanged (roster : List Device)
  | httpRequest (url : String)
  | scheduleSweep (delayMs : Int)
deriving DecidableEq

/-- `devices.hasOwnProperty(k)` (src/main.js lines 116, 140, 180, 187). -/
def objHas (m : List (String × Device)) (k : String) : Bool :=
  m.any (fun kv => kv.1 == k)

/-- Read `devices[k]`. -/
def objLookup (m : List (String × Device)) (k : String) : Option Device :=
  (m.find? (fun kv => kv.1 == k)).map (fun kv => kv.2)

/-- `devices[k] = v` (src/main.js line 188): replace in place when the key
exists, append otherwise. -/
def objSet (m : List (String × Device)) (k : String) (v : Device) :
    List (String × Device) :=
  if objHas m k then m.map (fun kv => if kv.1 == k then (k, v) else kv)
  else m ++ [(k, v)]

/-- `delete(devices[k])` (src/main.js line 181). -/
def objDelete (m : List (String × Device)) (k : String) :
    List (String × Device) :=
  m.filter (fun kv => kv.1 != k)

/-- `getDevices` (src/main.js lines 168-176): the values in key order. -/
def getDevices (m : List (String × Device)) : List Device :=
  m.map (fun kv => kv.2)

-- Refresh the device list after maximum five minutes (src/main.js line 33).
def deviceMaxLifetime : Int := 1000 * 60 * 5

/-- `addDevice` (src/main.js lines 186-196): remember whether the id was
unseen, store the device, and trigger one DEVICES event with the updated
roster only when it was unseen. -/
def addDevice (devices : List (String × Device)) (device : Device) :
    List (String × Device) × List Emit :=
  let isNew := !objHas devices device.id
  let devices₂ := objSet devices device.id device
  if isNew then (devices₂, [Emit.devicesChanged (getDevices devices₂)])
  else (devices₂, [])

/-- `removeDevice` (src/main.js lines 179-184): delete when present and only
then trigger a DEVICES event with the updated roster. -/
def removeDevice (devices : List (String × Device)) (deviceId : String) :
    List (String × Device) × List Emit :=
  if objHas devices deviceId then
    (objDelete devices deviceId,
     [Emit.devicesChanged (getDevices (objDelete devices deviceId))])
  else (devices, [])

/-- The synchronous effects of `requestDeviceDetails` (src/main.js lines
224-235): issue the HTTP request for the description document and schedule
one decay sweep after `deviceMaxLifetime`.  The completion callback is
`xhrCallback` below. -/
def requestDeviceDetailsEmits (location : String) : List Emit :=
  [Emit.httpRequest location, Emit.scheduleSweep deviceMaxLifetime]

/-- The loop body of `manageDeviceDecay` (src/main.js lines 205-217),
iterating over the keys of the registry as they were when the sweep started.
JavaScript `for (k in devices)` visits each key once and the loop deletes
only the key it is visiting, so iterating the entry snapshot while threading
the live map through `removeDevice` is the same computation; the
`hasOwnProperty` guard on line 209 always holds there for the same reason. -/
def decaySweepGo (referenceTime : Int) :
    List (String × Device) → List (String × Device) × List Emit →
    List (String × Device) × List Emit
  | [], st => st
  | entry :: rest, st =>
      if entry.2.lastUpdated ≤ referenceTime then
        decaySweepGo referenceTime rest
          ((removeDevice st.1 entry.1).1,
           st.2 ++ (removeDevice st.1 entry.1).2 ++
             requestDeviceDetailsEmits entry.2.infoUrl)
      else decaySweepGo referenceTime rest st

/-- `manageDeviceDecay` (src/main.js lines 205-217): every device whose
`getLastUpdated()` is at or before `Date.now() - deviceMaxLifetime` is
removed and its last-known `infoUrl` re-requested. -/
def manageDeviceDecay (now : Int) (devices : List (String × Device)) :
    List (String × Device) × List Emit :=
  decaySweepGo (now - deviceMaxLifetime) devices (devices, [])

/-- The sends scheduled by `discover` (src/main.js lines 306-315): the one
discovery payload `data = discoveryMessage.toData()` (built by the external
ssdp package and therefore abstracted as an argument) is scheduled with
`setTimeout(..., time * 500)` for each `time` in `[0, 1, 2, 3]`. -/
def discoverSchedule (data : String) : List (Int × String) :=
  [0, 1, 2, 3].map (fun time => (time * 500, data))

/-- The orchestrator state the claims observe: the module-level
`isServiceRunning` flag and the `devices` object (src/main.js lines 44-46).
The multicast socket handle is not represented: the HTTP detail-fetch
completion path never touches it. -/
structure ServiceState where
  isServiceRunning : Bool
  devices : List (String × Device)
deriving DecidableEq

/-- `stop` (src/main.js lines 88-95): clear the running flag (and close the
multicast socket, which carries no registry state). -/
def stop (st : ServiceState) : ServiceState :=
  { st with isServiceRunning := false }

/-- The result of a JavaScript callback: either its effects, or a thrown
`TypeError` from dereferencing `null`. -/
inductive JsOutcome (α : Type) where
  | ok (value : α)
  | thrownTypeError
deriving DecidableEq

/-- `xhrCallback` inside `requestDeviceDetails` (src/main.js lines 228-232):
`models.device.fromXml(xml)` is not under src/ and is abstracted by its
result `fromXmlResult` — modelled from the spec (§4.1, §7): a malformed
description yields no device, the convention every sibling codec in
src/main.js follows (`onDiscoveryResponse` line 244, `soapMediaInfoCallback`
line 154 both null-check their parse result).  The callback itself performs
`device.setInfoUrl(location); addDevice(device);` with no null check and no
read of `isServiceRunning`, so a `null` parse result throws and a successful
one always reaches the registry. -/
def xhrCallback (location : String) (fromXmlResult : Option Device)
    (st : ServiceState) : JsOutcome (ServiceState × List Emit) :=
  match fromXmlResult with
  | none => JsOutcome.thrownTypeError
  | some device =>
      let device₂ := { device with infoUrl := location }
      let r := addDevice st.devices device₂
      JsOutcome.ok ({ st with devices := r.1 }, r.2)

/-! ## Concrete documents and sample data used by the claims -/

/-- The sax event stream of `<foo><bar/><bar/><baz/></foo>`. -/
def c8Events : List SaxEvent :=
  [.openTag "foo" [], .openTag "bar" [], .closeTag "bar",
   .openTag "bar" [], .closeTag "bar", .openTag "baz" [], .closeTag "baz",
   .closeTag "foo"]

/-- The parsed document for the query claim (the node `query` runs on). -/
def c8Doc : Option XmlNode :=
  (parseEvents true c8Events).bind (fun st => st.current)

/-- The sax event stream of `<a>hello<b></b>world</a>`: two text chunks for
the same element, interleaved with a child element. -/
def c10Events : List SaxEvent :=
  [.openTag "a" [], .text "hello", .openTag "b" [], .closeTag "b",
   .text "world", .closeTag "a"]

/-- A sample parsed device record. -/
def devA : Device :=
  { id := "uuid:RINCON-000001", infoUrl := "", lastUpdated := 0 }

/-- A sample description-document URL. -/
def descUrl : String := "http://192.168.1.20/xml/device_description.xml"

/-- A device whose `lastUpdated` is exactly `deviceMaxLifetime` before the
sweep time 1000000 used in the decay witness. -/
def devOld : Device :=
  { id := "uuid:RINCON-OLD", infoUrl := "http://192.168.1.21/xml/device_description.xml",
    lastUpdated := 700000 }

/-- A device one millisecond fresher than the decay cutoff. -/
def devFresh : Device :=
  { id := "uuid:RINCON-FRESH", infoUrl := "http://192.168.1.22/xml/device_description.xml",
    lastUpdated := 700001 }

/-! ## Theorems for the claims -/

/-- Claim C9: the parser always runs in strict mode and always strips
namespace prefixes, whatever options object is passed — including explicit
`strict: false` or `excludeNamespace: false` — because `opts.strict || true`
and `opts.excludeNamespace || true` evaluate to `true` for every value of
the fields. -/
theorem c9_options_cannot_be_disabled (opts : XmlParserOpts) :
    saxStrictArg opts = true ∧ excludeNamespaceSetting opts = true ∧
    saxStrictArg { opts with strict := some false } = true ∧
    excludeNamespaceSetting { opts with excludeNamespace := some false } = true := by
  obtain ⟨s, e⟩ := opts
  refine ⟨?_, ?_, rfl, rfl⟩
  · cases s with
    | none => rfl
    | some b => cases b <;> rfl
  · cases e with
    | none => rfl
    | some b => cases b <;> rfl

/-- Claim C4: a close-tag event whose namespace-stripped name differs from
the name of the currently open node does not pop the current pointer: the
parser state is returned unchanged and no error is raised. -/
theorem c4_mismatched_close_keeps_state (tagNameRaw : String) (s : ParserState)
    (c : XmlNode) (hc : s.current = some c)
    (hne : c.name ≠ some (stripNamespace tagNameRaw)) :
    onCloseTagEv true tagNameRaw s = some s := by
  simp [onCloseTagEv, hc, hne]

/-- Witness for C4: closing `</u:bogusTag>` while the synthetic root node
(named `/`) is open leaves the initial parser state untouched. -/
theorem c4_witness :
    onCloseTagEv true "u:bogusTag" initParserState = some initParserState :=
  c4_mismatched_close_keeps_state "u:bogusTag" initParserState
    (XmlNode.mk (some "/") [] none []) (by rfl) (by decide)

/-- Claim C3 (refuted, code bug): the decode helper applied to
`"%26lt%3Bfoo%26gt%3B"` does not return `"<foo>"`.  `decodeURI` leaves the
escapes `%26` (`&`) and `%3B` (`;`) intact because both characters are in
the URI reserved set, so no `&lt;`/`&gt;` sequences ever appear and the five
entity substitutions find nothing: the code returns the input unchanged. -/
theorem c3_decode_reserved_escapes_kept :
    decodeXml "%26lt%3Bfoo%26gt%3B" = some "%26lt%3Bfoo%26gt%3B" ∧
    decodeXml "%26lt%3Bfoo%26gt%3B" ≠ some "<foo>" :=
  ⟨rfl, by decide⟩

/-- Claim C7: one `discover()` invocation schedules exactly four sends on
the burst socket, all carrying the same discovery payload, at offsets 0ms,
500ms, 1000ms and 1500ms. -/
theorem c7_discovery_burst (data : String) :
    (discoverSchedule data).length = 4 ∧
    (discoverSchedule data).map Prod.fst = [0, 500, 1000, 1500] ∧
    ∀ p ∈ discoverSchedule data, p.2 = data := by
  refine ⟨rfl, by rfl, ?_⟩
  intro p hp
  simp only [discoverSchedule, List.mem_map] at hp
  obtain ⟨t, _, rfl⟩ := hp
  rfl

/-- Witness for C7 at a concrete payload: the schedule has four entries and
the entry at offset 0 carries the payload. -/
theorem c7_witness :
    (discoverSchedule "M-SEARCH * HTTP/1.1").length = 4 ∧
    (((0 : Int), "M-SEARCH * HTTP/1.1")).2 = "M-SEARCH * HTTP/1.1" :=
  ⟨(c7_discovery_burst "M-SEARCH * HTTP/1.1").1,
   (c7_discovery_burst "M-SEARCH * HTTP/1.1").2.2
     ((0 : Int), "M-SEARCH * HTTP/1.1") (by decide)⟩

/-- Claim C8: `query "/foo/bar"` on the parsed document
`<foo><bar/><bar/><baz/></foo>` returns exactly the two `bar` nodes in
document order; a segment matching no children (`nomatch` in either
position) yields the empty result with no error. -/
theorem c8_query_direct_children :
    c8Doc.map (query "/foo/bar") =
      some [XmlNode.mk (some "bar") [] none [],
            XmlNode.mk (some "bar") [] none []] ∧
    c8Doc.map (fun root => (query "/foo/bar" root).map XmlNode.name) =
      some [some "bar", some "bar"] ∧
    c8Doc.map (query "/foo/nomatch") = some [] ∧
    c8Doc.map (query "/nomatch/bar") = some [] :=
  ⟨by rfl, by rfl, by rfl, by rfl⟩

/-- Claim C10: a text event overwrites the current node's `text` field — a
second chunk erases the first — and on `<a>hello<b></b>world</a>` the `a`
element ends up holding only the last chunk `"world"`. -/
theorem c10_text_overwrites (t₁ t₂ : String) (s : ParserState) :
    onTextEv t₂ (onTextEv t₁ s) = onTextEv t₂ s ∧
    ((parseEvents true c10Events).bind (fun st => st.current)).map XmlNode.children =
      some [XmlNode.mk (some "a") [] (some "world")
              [XmlNode.mk (some "b") [] none []]] := by
  constructor
  · obtain ⟨stk, cur⟩ := s
    cases cur with
    | none => rfl
    | some c => cases c with | mk n a t ch => rfl
  · rfl

/-- Claim C1 (refuted, code bug): after `stop()` the running flag is false,
yet an in-flight detail-fetch completion still mutates the registry — the
device is upserted and a DEVICES event fires — because no completion handler
reads `isServiceRunning` (the flag is written on lines 59 and 90 of
src/main.js and read nowhere). -/
theorem c1_completion_after_stop_mutates_registry :
    (stop { isServiceRunning := true, devices := [] }).isServiceRunning = false ∧
    xhrCallback descUrl (some devA) (stop { isServiceRunning := true, devices := [] }) =
      JsOutcome.ok
        ({ isServiceRunning := false,
           devices := [(devA.id, { devA with infoUrl := descUrl })] },
         [Emit.devicesChanged [{ devA with infoUrl := descUrl }]]) ∧
    ([(devA.id, { devA with infoUrl := descUrl })] : List (String × Device)) ≠
      (stop { isServiceRunning := true, devices := [] }).devices :=
  ⟨rfl, by rfl, by decide⟩

/-- Claim C2 (refuted, code bug): when the description body is malformed and
the device model cannot be built, `xhrCallback` throws a `TypeError`
(`device.setInfoUrl` on `null`, src/main.js line 230) instead of treating
the fetch as a failed, logged, isolated unit of work — whether the registry
is empty or already knows devices. -/
theorem c2_malformed_description_throws :
    xhrCallback descUrl none { isServiceRunning := true, devices := [] } =
      JsOutcome.thrownTypeError ∧
    xhrCallback descUrl none { isServiceRunning := true, devices := [(devA.id, devA)] } =
      JsOutcome.thrownTypeError :=
  ⟨rfl, rfl⟩

/-! ## Registry lemmas -/

theorem objSet_of_not_has (m : List (String × Device)) (k : String) (v : Device)
    (h : objHas m k = false) : objSet m k v = m ++ [(k, v)] := by
  simp [objSet, h]

theorem lookup_map_replace (k : String) (v : Device) :
    ∀ m : List (String × Device), objHas m k = true →
      objLookup (m.map (fun kv => if kv.1 == k then (k, v) else kv)) k = some v := by
  intro m
  induction m with
  | nil => intro h; simp [objHas] at h
  | cons kv rest ih =>
    intro h
    rw [List.map_cons]
    by_cases hk : (kv.1 == k) = true
    · rw [if_pos hk]
      unfold objLookup
      rw [List.find?_cons_of_pos _ (by simp)]
      rfl
    · rw [if_neg hk]
      unfold objLookup
      rw [List.find?_cons_of_neg _ (by simpa using hk)]
      have h₂ : objHas rest k = true := by
        have h₃ := h
        simp only [objHas, List.any_cons] at h₃
        rcases (Bool.or_eq_true _ _).mp h₃ with h₄ | h₄
        · exact absurd h₄ hk
        · exact h₄
      exact ih h₂

theorem map_fst_replace (k : String) (v : Device) (m : List (String × Device)) :
    (m.map (fun kv => if kv.1 == k then (k, v) else kv)).map Prod.fst =
      m.map Prod.fst := by
  induction m with
  | nil => rfl
  | cons kv rest ih =>
    have hhead : (if (kv.1 == k) then ((k, v) : String × Device) else kv).1 = kv.1 := by
      by_cases hk : (kv.1 == k) = true
      · rw [if_pos hk]
        exact (eq_of_beq hk).symm
      · rw [if_neg hk]
    simp only [List.map_cons, hhead, ih]

/-- Claim C5: `addDevice` with an unseen id appends the device and emits
exactly one DEVICES notification carrying the updated full roster; with a
known id it replaces the stored entry in place (same key set, lookup returns
the new device) and emits nothing. -/
theorem c5_upsert_notification (devices : List (String × Device)) (device : Device) :
    (objHas devices device.id = false →
      (addDevice devices device).1 = devices ++ [(device.id, device)] ∧
      (addDevice devices device).2 =
        [Emit.devicesChanged (getDevices (devices ++ [(device.id, device)]))]) ∧
    (objHas devices device.id = true →
      objLookup (addDevice devices device).1 device.id = some device ∧
      ((addDevice devices device).1).map Prod.fst = devices.map Prod.fst ∧
      (addDevice devices device).2 = []) := by
  constructor
  · intro h
    constructor
    · simp [addDevice, objSet, h]
    · simp [addDevice, objSet, h]
  · intro h
    have hpair : addDevice devices device = (objSet devices device.id device, []) := by
      simp [addDevice, h]
    refine ⟨?_, ?_, ?_⟩
    · rw [hpair]
      show objLookup (objSet devices device.id device) device.id = some device
      unfold objSet
      rw [if_pos h]
      exact lookup_map_replace _ _ _ h
    · rw [hpair]
      show (objSet devices device.id device).map Prod.fst = devices.map Prod.fst
      unfold objSet
      rw [if_pos h]
      exact map_fst_replace _ _ _
    · rw [hpair]

/-- Witness for C5 exercising both branches: inserting into the empty
registry appends and emits the roster notification; re-adding the same id
(with a refreshed record) replaces silently. -/
theorem c5_witness :
    ((addDevice [] devA).1 = [] ++ [(devA.id, devA)] ∧
     (addDevice [] devA).2 =
       [Emit.devicesChanged (getDevices ([] ++ [(devA.id, devA)]))]) ∧
    (objLookup (addDevice [(devA.id, devA)] { devA with lastUpdated := 5 }).1
        ({ devA with lastUpdated := 5 } : Device).id =
          some { devA with lastUpdated := 5 } ∧
     ((addDevice [(devA.id, devA)] { devA with lastUpdated := 5 }).1).map Prod.fst =
        [(devA.id, devA)].map Prod.fst ∧
     (addDevice [(devA.id, devA)] { devA with lastUpdated := 5 }).2 = []) :=
  ⟨(c5_upsert_notification [] devA).1 (by rfl),
   (c5_upsert_notification [(devA.id, devA)] { devA with lastUpdated := 5 }).2
     (by decide)⟩

/-! ## Decay sweep lemmas -/

theorem objHas_delete_self (m : List (String × Device)) (k : String) :
    objHas (objDelete m k) k = false := by
  induction m with
  | nil => rfl
  | cons kv rest ih =>
    simp only [objDelete] at ih ⊢
    rw [List.filter_cons]
    by_cases hk : (kv.1 == k) = true
    · rw [if_neg (by simp [bne, hk])]
      exact ih
    · rw [if_pos (by simp [bne, hk])]
      simp only [objHas, List.any_cons, hk, Bool.false_or]
      exact ih

theorem objHas_delete_ne (m : List (String × Device)) (k id : String)
    (h : k ≠ id) : objHas (objDelete m k) id = objHas m id := by
  induction m with
  | nil => rfl
  | cons kv rest ih =>
    simp only [objDelete] at ih ⊢
    rw [List.filter_cons]
    by_cases hk : (kv.1 == k) = true
    · rw [if_neg (by simp [bne, hk])]
      have hne : kv.1 ≠ id := by rw [eq_of_beq hk]; exact h
      have hkid : (kv.1 == id) = false := beq_eq_false_iff_ne.mpr hne
      rw [ih]
      simp only [objHas, List.any_cons, hkid, Bool.false_or]
    · rw [if_pos (by simp [bne, hk])]
      simp only [objHas, List.any_cons]
      simp only [objHas] at ih
      rw [ih]

theorem removeDevice_has_self (m : List (String × Device)) (k : String) :
    objHas (removeDevice m k).1 k = false := by
  unfold removeDevice
  by_cases h : objHas m k = true
  · simp [h, objHas_delete_self]
  · simp only [Bool.not_eq_true] at h
    simp [h]

theorem removeDevice_has_ne (m : List (String × Device)) (k id : String)
    (h : k ≠ id) : objHas (removeDevice m k).1 id = objHas m id := by
  unfold removeDevice
  by_cases hh : objHas m k = true
  · simp [hh, objHas_delete_ne m k id h]
  · simp only [Bool.not_eq_true] at hh
    simp [hh]

theorem removeDevice_has_false (m : List (String × Device)) (k id : String)
    (h : objHas m id = false) : objHas (removeDevice m k).1 id = false := by
  by_cases hk : k = id
  · rw [hk]; exact removeDevice_has_self m id
  · rw [removeDevice_has_ne m k id hk]; exact h

theorem go_no_insert (ref : Int) (l : List (String × Device)) :
    ∀ (m : List (String × Device)) (em : List Emit) (id : String),
      objHas m id = false → objHas (decaySweepGo ref l (m, em)).1 id = false := by
  induction l with
  | nil => intro m em id h; simpa [decaySweepGo] using h
  | cons en rest ih =>
    intro m em id h
    by_cases hc : en.2.lastUpdated ≤ ref
    · simp only [decaySweepGo, if_pos hc]
      exact ih _ _ id (removeDevice_has_false m en.1 id h)
    · simp only [decaySweepGo, if_neg hc]
      exact ih m em id h

theorem go_emits_mono (ref : Int) (l : List (String × Device)) :
    ∀ (m : List (String × Device)) (em : List Emit) (e : Emit),
      e ∈ em → e ∈ (decaySweepGo ref l (m, em)).2 := by
  induction l with
  | nil => intro m em e h; simpa [decaySweepGo] using h
  | cons en rest ih =>
    intro m em e h
    by_cases hc : en.2.lastUpdated ≤ ref
    · simp only [decaySweepGo, if_pos hc]
      exact ih _ _ e (by simp [h])
    · simp only [decaySweepGo, if_neg hc]
      exact ih m em e h

theorem go_removes (ref : Int) (l : List (String × Device)) :
    ∀ (m : List (String × Device)) (em : List Emit) (id : String) (d : Device),
      (id, d) ∈ l → d.lastUpdated ≤ ref →
      objHas (decaySweepGo ref l (m, em)).1 id = false ∧
      Emit.httpRequest d.infoUrl ∈ (decaySweepGo ref l (m, em)).2 := by
  induction l with
  | nil => intro _ _ _ _ h _; exact absurd h (List.not_mem_nil _)
  | cons en rest ih =>
    intro m em id d hmem hd
    rcases List.mem_cons.mp hmem with he | hrest
    · subst he
      simp only [decaySweepGo, if_pos hd]
      constructor
      · exact go_no_insert ref rest _ _ id (removeDevice_has_self m id)
      · exact go_emits_mono ref rest _ _ _ (by simp [requestDeviceDetailsEmits])
    · by_cases hc : en.2.lastUpdated ≤ ref
      · simp only [decaySweepGo, if_pos hc]
        exact ih _ _ id d hrest hd
      · simp only [decaySweepGo, if_neg hc]
        exact ih m em id d hrest hd

theorem go_keeps (ref : Int) (l : List (String × Device)) :
    ∀ (m : List (String × Device)) (em : List Emit) (id : String),
      (∀ d₂ : Device, (id, d₂) ∈ l → ¬ d₂.lastUpdated ≤ ref) →
      objHas (decaySweepGo ref l (m, em)).1 id = objHas m id := by
  induction l with
  | nil => intro m em id _; simp [decaySweepGo]
  | cons en rest ih =>
    intro m em id h
    by_cases hc : en.2.lastUpdated ≤ ref
    · have hne : en.1 ≠ id := by
        intro hk
        have hmem : (id, en.2) ∈ en :: rest := by
          rw [← hk]
          exact List.mem_cons_self _ _
        exact h en.2 hmem hc
      simp only [decaySweepGo, if_pos hc]
      rw [ih _ _ id (fun d₂ hd₂ => h d₂ (List.mem_cons_of_mem _ hd₂))]
      exact removeDevice_has_ne m en.1 id hne
    · simp only [decaySweepGo, if_neg hc]
      exact ih m em id (fun d₂ hd₂ => h d₂ (List.mem_cons_of_mem _ hd₂))

theorem objHas_of_mem {m : List (String × Device)} {id : String} {d : Device}
    (h : (id, d) ∈ m) : objHas m id = true := by
  simp only [objHas, List.any_eq_true]
  exact ⟨(id, d), h, by simp⟩

theorem keys_nodup_unique {m : List (String × Device)}
    (hn : (m.map Prod.fst).Nodup) {id : String} {d₁ d₂ : Device}
    (h₁ : (id, d₁) ∈ m) (h₂ : (id, d₂) ∈ m) : d₁ = d₂ := by
  induction m with
  | nil => cases h₁
  | cons kv rest ih =>
    simp only [List.map_cons, List.nodup_cons] at hn
    rcases List.mem_cons.mp h₁ with e₁ | r₁ <;> rcases List.mem_cons.mp h₂ with e₂ | r₂
    · have h₃ : (id, d₁) = (id, d₂) := e₁.trans e₂.symm
      simpa using h₃
    · exfalso
      apply hn.1
      have hk : kv.1 = id := by rw [← e₁]
      rw [hk]
      simpa using List.mem_map_of_mem Prod.fst r₂
    · exfalso
      apply hn.1
      have hk : kv.1 = id := by rw [← e₂]
      rw [hk]
      simpa using List.mem_map_of_mem Prod.fst r₁
    · exact ih hn.2 r₁ r₂

/-- Claim C6: at sweep time `now`, every registered device whose
`lastUpdated` is at or before `now - deviceMaxLifetime` is removed by the
sweep and an HTTP re-query of its last-known `infoUrl` is issued, while a
device whose `lastUpdated` equals `now - deviceMaxLifetime + 1` (one
millisecond inside the lifetime) survives. -/
theorem c6_decay_sweep (now : Int) (devices : List (String × Device))
    (id : String) (d : Device) (hmem : (id, d) ∈ devices)
    (hnodup : (devices.map Prod.fst).Nodup) :
    (d.lastUpdated ≤ now - deviceMaxLifetime →
      objHas (manageDeviceDecay now devices).1 id = false ∧
      Emit.httpRequest d.infoUrl ∈ (manageDeviceDecay now devices).2) ∧
    (d.lastUpdated = now - deviceMaxLifetime + 1 →
      objHas (manageDeviceDecay now devices).1 id = true) := by
  constructor
  · intro hd
    exact go_removes (now - deviceMaxLifetime) devices devices [] id d hmem hd
  · intro hd
    show objHas (decaySweepGo (now - deviceMaxLifetime) devices (devices, [])).1 id = true
    rw [go_keeps (now - deviceMaxLifetime) devices devices [] id ?fresh]
    · exact objHas_of_mem hmem
    case fresh =>
      intro d₂ hd₂ hle
      have hdd : d₂ = d := keys_nodup_unique hnodup hd₂ hmem
      rw [hdd, hd] at hle
      omega

/-- Witness for C6: sweeping at `now = 1000000` a registry holding `devOld`
(`lastUpdated` exactly `deviceMaxLifetime` in the past) and `devFresh` (one
millisecond fresher) removes and re-queries `devOld` and keeps `devFresh`. -/
theorem c6_witness :
    (objHas (manageDeviceDecay 1000000
        [(devOld.id, devOld), (devFresh.id, devFresh)]).1 devOld.id = false ∧
     Emit.httpRequest devOld.infoUrl ∈
       (manageDeviceDecay 1000000
         [(devOld.id, devOld), (devFresh.id, devFresh)]).2) ∧
    objHas (manageDeviceDecay 1000000
        [(devOld.id, devOld), (devFresh.id, devFresh)]).1 devFresh.id = true :=
  ⟨(c6_decay_sweep 1000000 [(devOld.id, devOld), (devFresh.id, devFresh)]
      devOld.id devOld (by decide) (by decide)).1 (by decide),
   (c6_decay_sweep 1000000 [(devOld.id, devOld), (devFresh.id, devFresh)]
      devFresh.id devFresh (by decide) (by decide)).2 (by decide)⟩

end Sonos
